import Mathlib

/-!
# Culinary Assistant — shallow embedding of the orchestration layer

This file embeds, in Lean 4, the state/data-flow logic of the Culinary
Assistant single-page application and proves properties of it:

* the data model (`Recipe`, `Ingredient`, `ChatMessage`, `View`, `Tab`
  from `types.ts`),
* the recipe-collection operations of `App.tsx` (`dietFiltered` inside
  the `filteredRecipes` memo, `handleToggleFavorite`, `addToShoppingList`,
  `removeFromShoppingList`, `resetApp`, `handleSelectRecipe`,
  `handleBackToRecipes`, `handleImageUpload`) together with a reachable-state
  relation for the view/navigation machine,
* the chat orchestrator of `App.tsx` (`handleSendMessage` with its
  streaming accumulation loop) with the external stream modelled as the
  ordered list of text fragments it delivers,
* the AI response parsing and translation helpers of
  `services/geminiService.ts` (`analyzeFridgeAndSuggestRecipes`,
  `translateTexts`) with the raw network/JSON layer abstracted to the
  parse result it hands the validation logic,
* the translation passes of the chatbot (`doTranslate` in the `Chatbot`
  component) and of the recipe detail view (`handleTranslation` in
  `RecipeDetailView`).

External effects (the generative-AI service, `JSON.parse`, the browser)
are modelled by passing their observable outcome as an explicit argument;
all of the repository's own decision logic is translated statement by
statement.
-/

namespace CulinaryAssistant

/-! ## Data model (`types.ts`) -/

/-- `difficulty: 'Easy' | 'Medium' | 'Hard'` from `types.ts`. -/
inductive Difficulty
  | easy
  | medium
  | hard
deriving DecidableEq, Repr

/-- `Ingredient` from `types.ts`: `{ name: string; isAvailable: boolean }`. -/
structure Ingredient where
  name : String
  isAvailable : Bool
deriving DecidableEq, Repr

/-- `Recipe` from `types.ts`. `cookTime` is optional there, hence `Option`.
Spec §3 constrains `prepTime`/`calories` to integers ≥ 0, so `Nat`. -/
structure Recipe where
  name : String
  difficulty : Difficulty
  prepTime : Nat
  cookTime : Option Nat := none
  calories : Nat
  dietaryTags : List String
  ingredients : List Ingredient
  instructions : List String
deriving DecidableEq, Repr

/-- `role: 'user' | 'model'` of `ChatMessage` in `types.ts`. -/
inductive Role
  | user
  | model
deriving DecidableEq, Repr

/-- `GroundingChunk` from `types.ts` (`web: { uri, title }`). -/
structure GroundingChunk where
  uri : String
  title : String
deriving DecidableEq, Repr

/-- `ChatMessage` from `types.ts`.  The optional
`translations?: { [languageCode: string]: string }` object is modelled as an
association list looked up with `lookupTranslation`; the optional
`groundingChunks?` array as a list that is `[]` when absent. -/
structure ChatMessage where
  role : Role
  text : String
  translations : List (String × String) := []
  groundingChunks : List GroundingChunk := []
deriving DecidableEq, Repr

/-- `View` from `types.ts`. -/
inductive View
  | upload
  | recipes
  | cooking
deriving DecidableEq, Repr

/-- `Tab` from `types.ts`. -/
inductive Tab
  | recipes
  | shoppingList
  | favorites
deriving DecidableEq, Repr

/-! ## Constants (`constants.ts`) -/

/-- `DIETARY_OPTIONS` from `constants.ts`. -/
def DIETARY_OPTIONS : List String :=
  ["Vegetarian", "Keto", "Gluten-Free", "Vegan", "Dairy-Free"]

/-- `TRANSLATION_LANGUAGES` from `constants.ts`, as (code, name) pairs. -/
def TRANSLATION_LANGUAGES : List (String × String) :=
  [("en", "English"), ("es", "Spanish"), ("fr", "French"), ("de", "German"),
   ("hi", "Hindi"), ("zh", "Chinese (Simplified)"), ("ja", "Japanese"),
   ("ar", "Arabic"), ("ru", "Russian"), ("si", "Sinhala"), ("ta", "Tamil")]

/-! ## Recipe collection manager (`App.tsx`) -/

/-- The dietary-filter step of the `filteredRecipes` memo in `App.tsx`
(the local constant `dietFiltered`, lines 112–118):

    const dietFiltered = activeFilters.length === 0
      ? sourceRecipes
      : sourceRecipes.filter(recipe =>
          activeFilters.every(filter => recipe.dietaryTags.includes(filter)));
-/
def dietFiltered (sourceRecipes : List Recipe) (activeFilters : List String) : List Recipe :=
  if activeFilters.length = 0 then
    sourceRecipes
  else
    sourceRecipes.filter (fun recipe =>
      activeFilters.all (fun filter => recipe.dietaryTags.contains filter))

/-- `handleToggleFavorite` from `App.tsx` (lines 155–164).  `prev` is the
favorites list held in the `favoriteRecipes` state; the update function of
`setFavoriteRecipes` is applied to it:

    const isFavorited = prev.some(recipe => recipe.name === recipeToToggle.name);
    if (isFavorited) return prev.filter(recipe => recipe.name !== recipeToToggle.name);
    else return [...prev, recipeToToggle];
-/
def handleToggleFavorite (recipeToToggle : Recipe) (prev : List Recipe) : List Recipe :=
  if prev.any (fun recipe => recipe.name == recipeToToggle.name) then
    prev.filter (fun recipe => recipe.name != recipeToToggle.name)
  else
    prev ++ [recipeToToggle]

/-- `addToShoppingList` from `App.tsx` (lines 144–149), applied to the
previous list `prev` held in the `shoppingList` state:

    const newItems = items.filter(item => !prev.includes(item));
    return [...prev, ...newItems];
-/
def addToShoppingList (prev : List String) (items : List String) : List String :=
  let newItems := items.filter (fun item => !prev.contains item)
  prev ++ newItems

/-- `removeFromShoppingList` from `App.tsx` (lines 151–153). -/
def removeFromShoppingList (prev : List String) (itemToRemove : String) : List String :=
  prev.filter (fun item => item != itemToRemove)

/-! ## Application state and navigation (`App.tsx`) -/

/-- The `useState` cells of the `App` component that the navigation and
collection operations read or write.  The uploaded `File` is opaque, so it
is modelled only by its presence. -/
structure AppState where
  view : View
  activeTab : Tab
  uploadedImage : Option Unit
  recipes : List Recipe
  selectedRecipe : Option Recipe
  shoppingList : List String
  activeFilters : List String
  isLoading : Bool
  error : Option String
  searchQuery : String
  favoriteRecipes : List Recipe
deriving DecidableEq, Repr

/-- The initial state of `App` (`useState` initialisers in `App.tsx`
lines 14–32); the favorites list is whatever `localStorage` yielded. -/
def initState (loadedFavorites : List Recipe) : AppState :=
  { view := .upload
    activeTab := .recipes
    uploadedImage := none
    recipes := []
    selectedRecipe := none
    shoppingList := []
    activeFilters := []
    isLoading := false
    error := none
    searchQuery := ""
    favoriteRecipes := loadedFavorites }

/-- `resetApp` from `App.tsx` (lines 166–173). -/
def resetApp (s : AppState) : AppState :=
  { s with
    view := .upload
    uploadedImage := none
    recipes := []
    selectedRecipe := none
    error := none
    searchQuery := "" }

/-- `handleSelectRecipe` from `App.tsx` (lines 134–137). -/
def handleSelectRecipe (recipe : Recipe) (s : AppState) : AppState :=
  { s with selectedRecipe := some recipe, view := .cooking }

/-- `handleBackToRecipes` from `App.tsx` (lines 139–142). -/
def handleBackToRecipes (s : AppState) : AppState :=
  { s with selectedRecipe := none, view := .recipes }

/-- The end-to-end state effect of `handleImageUpload` from `App.tsx`
(lines 75–91) once `analyzeFridgeAndSuggestRecipes` has settled: the image
is stored, recipes are cleared eagerly, and on success the suggested
recipes are installed with the view moved to `recipes`; on failure the
error message is recorded and the view forced back to `upload`.  The
`finally` block resets `isLoading`. -/
def handleImageUpload (outcome : Except String (List Recipe)) (s : AppState) : AppState :=
  let s1 := { s with uploadedImage := some (), error := none, recipes := [] }
  match outcome with
  | .ok suggestedRecipes =>
      { s1 with recipes := suggestedRecipes, view := .recipes, activeTab := .recipes,
                isLoading := false }
  | .error message =>
      { s1 with error := some message, view := .upload, isLoading := false }

/-- `handleFilterChange` from `App.tsx` (lines 93–99). -/
def handleFilterChange (filter : String) (s : AppState) : AppState :=
  { s with activeFilters :=
      if s.activeFilters.contains filter then
        s.activeFilters.filter (fun f => f != filter)
      else
        s.activeFilters ++ [filter] }

/-- The exposed operations that mutate the `App` state (event handlers in
`App.tsx` and the plain setters wired to the tab buttons and the search
input). -/
inductive AppOp
  | imageUpload (outcome : Except String (List Recipe))
  | filterChange (filter : String)
  | clearFilters
  | selectRecipe (recipe : Recipe)
  | backToRecipes
  | addShopping (items : List String)
  | removeShopping (item : String)
  | toggleFavorite (recipe : Recipe)
  | reset
  | setTab (tab : Tab)
  | setSearch (query : String)

/-- One step of the application state machine: dispatch of `AppOp` to the
corresponding handler in `App.tsx`. -/
def applyOp (op : AppOp) (s : AppState) : AppState :=
  match op with
  | .imageUpload outcome => handleImageUpload outcome s
  | .filterChange filter => handleFilterChange filter s
  | .clearFilters => { s with activeFilters := [] }
  | .selectRecipe recipe => handleSelectRecipe recipe s
  | .backToRecipes => handleBackToRecipes s
  | .addShopping items => { s with shoppingList := addToShoppingList s.shoppingList items }
  | .removeShopping item =>
      { s with shoppingList := removeFromShoppingList s.shoppingList item }
  | .toggleFavorite recipe =>
      { s with favoriteRecipes := handleToggleFavorite recipe s.favoriteRecipes }
  | .reset => resetApp s
  | .setTab tab => { s with activeTab := tab }
  | .setSearch query => { s with searchQuery := query }

/-- The states reachable from some initial state through the exposed
operations. -/
inductive Reachable : AppState → Prop
  | init (loadedFavorites : List Recipe) : Reachable (initState loadedFavorites)
  | step (s : AppState) (op : AppOp) : Reachable s → Reachable (applyOp op s)

/-! ## Chat orchestrator (`handleSendMessage` in `App.tsx`, lines 175–225)

The external stream of `chatSession.sendMessageStream` is modelled by the
list of `chunk.text` fragments it delivers, in arrival order, plus — for a
stream that completes — the grounding-chunk list carried by the terminal
response (empty when absent).  A failed send/stream is modelled by the
fragments that were applied before the exception was raised. -/

/-- Replace the text of the last message of the list, as
`newMessages[newMessages.length - 1].text = fullResponse` does on a
non-empty list (`App.tsx` lines 197–201). -/
def setLastText : List ChatMessage → String → List ChatMessage
  | [], _ => []
  | [m], t => [{ m with text := t }]
  | m :: m' :: rest, t => m :: setLastText (m' :: rest) t

/-- Attach grounding chunks to the last message when it is a model message,
as the post-stream update does (`App.tsx` lines 208–215). -/
def setLastGrounding : List ChatMessage → List GroundingChunk → List ChatMessage
  | [], _ => []
  | [m], g => if m.role = .model then [{ m with groundingChunks := g }] else [m]
  | m :: m' :: rest, g => m :: setLastGrounding (m' :: rest) g

/-- The guarded grounding update after the stream ends (`App.tsx`
lines 206–216): only performed when the final chunk carried a non-empty
`groundingChunks` array. -/
def attachGrounding (msgs : List ChatMessage) (g : List GroundingChunk) : List ChatMessage :=
  if g.isEmpty then msgs else setLastGrounding msgs g

/-- The `for await` loop of `handleSendMessage` (`App.tsx` lines 188–203):
`fullResponse += chunk.text`; the first chunk appends a fresh model
message holding `fullResponse`, every later chunk overwrites the text of
the last message with the running `fullResponse`. -/
def streamChunks : List ChatMessage → Bool → String → List String → List ChatMessage
  | msgs, _, _, [] => msgs
  | msgs, firstChunk, fullResponse, c :: cs =>
    let full := fullResponse ++ c
    if firstChunk then
      streamChunks (msgs ++ [{ role := .model, text := full }]) false full cs
    else
      streamChunks (setLastText msgs full) false full cs

/-- The user message appended synchronously at the top of
`handleSendMessage` (`App.tsx` line 178). -/
def mkUserMessage (message : String) : ChatMessage :=
  { role := .user, text := message }

/-- The terminal apology message appended by the `catch` block of
`handleSendMessage` (`App.tsx` line 220). -/
def apologyMessage : ChatMessage :=
  { role := .model, text := "Sorry, I'm having trouble connecting right now." }

/-- Observable outcome of one `sendMessageStream` call: either the stream
fails (after the listed fragments were already applied), or it completes
with the listed fragments and the terminal response's grounding chunks. -/
inductive StreamOutcome
  | failure (received : List String)
  | success (chunks : List String) (grounding : List GroundingChunk)

/-- `handleSendMessage` from `App.tsx` (lines 175–225), as a function of
the prior transcript, the prior `isBotLoading` flag, and the stream
outcome; it returns the final transcript and `isBotLoading` value.

* `if (!chatSession) return;` — with no session nothing happens;
* the user message is appended, `isBotLoading` set;
* on success the chunks are folded by the streaming loop and the grounding
  update applied; on failure the fragments applied so far stay and the
  apology message is appended;
* the `finally` block resets `isBotLoading` to `false`. -/
def handleSendMessage (hasSession : Bool) (isBotLoading : Bool)
    (chatMessages : List ChatMessage) (message : String)
    (outcome : StreamOutcome) : List ChatMessage × Bool :=
  if !hasSession then
    (chatMessages, isBotLoading)
  else
    let msgs := chatMessages ++ [mkUserMessage message]
    match outcome with
    | .failure received =>
        (streamChunks msgs true "" received ++ [apologyMessage], false)
    | .success chunks grounding =>
        (attachGrounding (streamChunks msgs true "" chunks) grounding, false)

/-! ## AI response parsing (`services/geminiService.ts`)

`JSON.parse` and the network are the environment; their observable outcome
is passed in.  For `translateTexts` the outcome is `some arr` when the
stripped response parsed as a JSON array of strings and `none` when it
did not parse, the request itself failed, or the value was not such an
array.  For `analyzeFridgeAndSuggestRecipes` the parse outcome
distinguishes an array payload from any other successfully parsed value. -/

/-- JavaScript `String.prototype.startsWith`. -/
def jsStartsWith (s pfx : String) : Bool :=
  pfx.data.isPrefixOf s.data

/-- JavaScript `String.prototype.endsWith`. -/
def jsEndsWith (s sfx : String) : Bool :=
  sfx.data.isSuffixOf s.data

/-- JavaScript `String.prototype.trim`: remove leading and trailing
whitespace. -/
def jsTrim (s : String) : String :=
  ⟨((s.data.dropWhile Char.isWhitespace).reverse.dropWhile Char.isWhitespace).reverse⟩

/-- Drop the first `n` characters (`slice(n)` on a non-negative start). -/
def jsDrop (s : String) (n : Nat) : String :=
  ⟨s.data.drop n⟩

/-- Drop the last `n` characters; `jsDrop (jsDropRight s m) n` is
JavaScript `s.slice(n, -m)` (empty when the bounds cross, as in JS). -/
def jsDropRight (s : String) (n : Nat) : String :=
  ⟨s.data.take (s.data.length - n)⟩

/-- The code-fence stripping applied to a raw response before parsing
(`geminiService.ts`): `trim()`, then `slice(7, -3).trim()` after a leading
"three backticks + json", else `slice(3, -3).trim()` after leading
three backticks. -/
def stripFence (s : String) : String :=
  let jsonText := jsTrim s
  if jsStartsWith jsonText "```json" then
    jsTrim (jsDropRight (jsDrop jsonText 7) 3)
  else if jsStartsWith jsonText "```" then
    jsTrim (jsDropRight (jsDrop jsonText 3) 3)
  else
    jsonText

/-- `translateTexts` from `services/geminiService.ts`, with
`parsedResponse` the abstracted result of stripping and `JSON.parse`-ing
the service's reply (`none` covers a thrown request, unparsable text, a
non-array value, and — beyond the source's duck typing — an array of
non-strings):

* an empty input returns `[]` without calling the service;
* a parsed array of the wrong length raises, and the `catch` block
  returns the original `texts`;
* any other failure also lands in the `catch` block and returns `texts`.
-/
def translateTexts (texts : List String) (parsedResponse : Option (List String)) :
    List String :=
  if texts.isEmpty then
    []
  else
    match parsedResponse with
    | some translatedArray =>
        if translatedArray.length = texts.length then translatedArray else texts
    | none => texts

/-- A service interaction that `translateTexts` treats as failed for the
given request `texts`: no parsable array came back, or the array length
does not match the request. -/
def translationFailed (texts : List String) (parsedResponse : Option (List String)) : Prop :=
  parsedResponse = none ∨
    ∃ arr, parsedResponse = some arr ∧ arr.length ≠ texts.length

/-- Abstracted result of `JSON.parse` on the stripped recipe payload in
`analyzeFridgeAndSuggestRecipes`: a JSON array (whose elements are read as
recipes, mirroring the unchecked `as Recipe[]` cast) or any other JSON
value. -/
inductive ParsedPayload
  | recipeArray (recipes : List Recipe)
  | nonArray
deriving DecidableEq, Repr

/-- The user-facing message for an empty AI response
(`geminiService.ts`, `analyzeFridgeAndSuggestRecipes`). -/
def emptyResponseMessage : String :=
  "The AI provided an empty response. This can happen if the image is unclear or the safety filters were triggered. Please try a different photo."

/-- The user-facing message thrown when the stripped payload is not
array-bracketed (no recognizable content). -/
def noRecognizableContentMessage : String :=
  "The AI couldn't generate recipes from the image. It might be unclear or contain no recognizable food items. Please try a clearer photo."

/-- The user-facing message raised for a `SyntaxError` from `JSON.parse`. -/
def invalidFormatMessage : String :=
  "The AI's recipe list was not in the expected format. This can be a temporary issue. Please try uploading the image again."

/-- The response-validation logic of `analyzeFridgeAndSuggestRecipes` from
`services/geminiService.ts` (the current version, the one that also
exports `estimateCookTime`), from the raw response text onward:

* a falsy `response.text` throws the empty-response message;
* code fencing is stripped;
* a stripped payload that does not start with `[` and end with `]` throws
  the no-recognizable-content message before any parse is attempted;
* a `SyntaxError` from `JSON.parse` is rethrown as the invalid-format
  message;
* otherwise the parsed value is returned as-is (the source casts it with
  `as Recipe[]` without checking, hence the `ParsedPayload` result type).

`parse s = none` models a `SyntaxError`. -/
def analyzeFridgeAndSuggestRecipes (responseText : String)
    (parse : String → Option ParsedPayload) : Except String ParsedPayload :=
  if responseText = "" then
    .error emptyResponseMessage
  else
    let jsonText := stripFence responseText
    if !(jsStartsWith jsonText "[" && jsEndsWith jsonText "]") then
      .error noRecognizableContentMessage
    else
      match parse jsonText with
      | none => .error invalidFormatMessage
      | some payload => .ok payload

/-! ## Chat translation pass (`doTranslate` in the `Chatbot` component)

`doTranslate` (the effect in `Chatbot`, `App.tsx` lines 403–445) collects
the indices of messages with no truthy cached translation for the selected
language, sends their texts to `translateTexts`, and stores each returned
string onto its message only when it is non-empty and differs from the
original text.

`translateTexts` always returns exactly as many strings as it was given
(its success branch checks the length and its fallback returns the
request), so the index bookkeeping of the source's `forEach` is the
positional zip of the needy messages with the returned list;
`applyTranslations` below realises that zip by walking the messages in
order and consuming one returned string per needy message. -/

/-- Lookup in the `translations?` object of a message. -/
def lookupTranslation (m : ChatMessage) (lang : String) : Option String :=
  (m.translations.find? (fun p => p.1 == lang)).map (·.2)

/-- The JavaScript truthiness test `!msg.translations?.[selectedLanguage]`
deciding that a message still needs translation: no entry, or an entry
holding the empty string. -/
def needsTranslation (m : ChatMessage) (lang : String) : Bool :=
  match lookupTranslation m lang with
  | none => true
  | some t => t == ""

/-- `newMessages[i].translations![selectedLanguage] = translatedText`:
store (or overwrite) the translation for `lang`. -/
def setTranslation (m : ChatMessage) (lang translatedText : String) : ChatMessage :=
  { m with translations :=
      (lang, translatedText) :: m.translations.filter (fun p => p.1 != lang) }

/-- The guarded per-item store of `doTranslate` (`App.tsx` lines 427–433):
`if (translatedText && translatedText !== newMessages[i].text)` — only a
non-empty string different from the original text is cached. -/
def storeTranslationIfNew (lang : String) (m : ChatMessage) (translatedText : String) :
    ChatMessage :=
  if translatedText != "" && translatedText != m.text then
    setTranslation m lang translatedText
  else
    m

/-- Apply the returned translation list to the messages: each message that
needed translation consumes the next returned string and stores it under
the guard above; other messages are untouched. -/
def applyTranslations (lang : String) : List ChatMessage → List String → List ChatMessage
  | [], _ => []
  | m :: ms, ts =>
    if needsTranslation m lang then
      match ts with
      | [] => m :: applyTranslations lang ms []
      | t :: ts' => storeTranslationIfNew lang m t :: applyTranslations lang ms ts'
    else
      m :: applyTranslations lang ms ts

/-- `doTranslate` from the `Chatbot` component (`App.tsx` lines 403–445),
with its surrounding effect guard (`selectedLanguage === 'en' || !messages.length
|| !isOpen`).  `parsedResponse` abstracts the translation service's reply
for the batch of needy texts, as in `translateTexts`. -/
def doTranslate (isOpen : Bool) (messages : List ChatMessage) (selectedLanguage : String)
    (parsedResponse : Option (List String)) : List ChatMessage :=
  if selectedLanguage == "en" || messages.isEmpty || !isOpen then
    messages
  else
    let needy := messages.filter (fun m => needsTranslation m selectedLanguage)
    if needy.isEmpty then
      messages
    else
      match TRANSLATION_LANGUAGES.find? (fun l => l.1 == selectedLanguage) with
      | none => messages
      | some _ =>
          let textsToTranslate := needy.map (·.text)
          let translatedTexts := translateTexts textsToTranslate parsedResponse
          applyTranslations selectedLanguage messages translatedTexts

/-! ## Recipe translation pass (`handleTranslation` in `RecipeDetailView`)

`handleTranslation` (the effect in `RecipeDetailView.tsx`, and in the
earlier copy of that component) requests two batches — ingredient names
and instructions — via `translateTexts`, rebuilds the ingredient objects
(`translatedIngredientNames[index] || ing.name`), and publishes the
combined record into `translatedContent[selectedLanguage]`.  The cache is
modelled as an association list keyed by language code. -/

/-- One entry of the `translatedContent` record in `RecipeDetailView`. -/
structure TranslatedContent where
  ingredients : List Ingredient
  instructions : List String
deriving DecidableEq, Repr

/-- Lookup of `translatedContent[lang]`. -/
def lookupContent (cache : List (String × TranslatedContent)) (lang : String) :
    Option TranslatedContent :=
  (cache.find? (fun p => p.1 == lang)).map (·.2)

/-- `handleTranslation` from `RecipeDetailView.tsx` (the translation
effect), as a function of the current cache and the two abstracted service
replies; it returns the new cache.

* `selectedLanguage === 'en' || translatedContent[selectedLanguage]` — no
  work when English is selected or an entry already exists;
* an unknown language code is ignored;
* otherwise both batches are requested (each falling back to its original
  strings inside `translateTexts` on failure), the ingredient names are
  rebuilt with `translatedIngredientNames[index] || ing.name`, and the
  combined entry is recorded under `selectedLanguage` unconditionally. -/
def handleTranslation (recipe : Recipe) (selectedLanguage : String)
    (translatedContent : List (String × TranslatedContent))
    (ingredientsResponse instructionsResponse : Option (List String)) :
    List (String × TranslatedContent) :=
  if selectedLanguage == "en" || (lookupContent translatedContent selectedLanguage).isSome then
    translatedContent
  else
    match TRANSLATION_LANGUAGES.find? (fun l => l.1 == selectedLanguage) with
    | none => translatedContent
    | some _ =>
        let originalIngredientNames := recipe.ingredients.map (·.name)
        let translatedIngredientNames :=
          translateTexts originalIngredientNames ingredientsResponse
        let translatedInstructions :=
          translateTexts recipe.instructions instructionsResponse
        let translatedIngredients := recipe.ingredients.enum.map (fun p =>
          let n := translatedIngredientNames.getD p.1 ""
          { p.2 with name := if n == "" then p.2.name else n })
        (selectedLanguage,
          { ingredients := translatedIngredients,
            instructions := translatedInstructions }) :: translatedContent

/-! ## Theorems -/

/-- C9: `resetApp` sets the view to `upload` and clears exactly the
uploaded image, the recipe set, the selected recipe, the error message and
the search query, leaving every other state cell — in particular the
favorites list and the shopping list — unchanged. -/
theorem resetApp_frame (s : AppState) :
    (resetApp s).view = .upload
    ∧ (resetApp s).uploadedImage = none
    ∧ (resetApp s).recipes = []
    ∧ (resetApp s).selectedRecipe = none
    ∧ (resetApp s).error = none
    ∧ (resetApp s).searchQuery = ""
    ∧ (resetApp s).favoriteRecipes = s.favoriteRecipes
    ∧ (resetApp s).shoppingList = s.shoppingList
    ∧ (resetApp s).activeTab = s.activeTab
    ∧ (resetApp s).activeFilters = s.activeFilters
    ∧ (resetApp s).isLoading = s.isLoading :=
  ⟨rfl, rfl, rfl, rfl, rfl, rfl, rfl, rfl, rfl, rfl, rfl⟩

/-- C5: the dietary-filter step keeps exactly the recipes whose
`dietaryTags` contain every active filter (AND semantics), and an empty
filter set is the identity. -/
theorem dietFiltered_and_semantics (R : List Recipe) (F : List String) :
    (∀ r, r ∈ dietFiltered R F ↔ r ∈ R ∧ ∀ f ∈ F, f ∈ r.dietaryTags)
    ∧ dietFiltered R [] = R := by
  refine ⟨fun r => ?_, rfl⟩
  unfold dietFiltered
  by_cases h : F.length = 0
  · rw [List.length_eq_zero] at h
    subst h
    simp
  · simp only [h, if_false, List.mem_filter, List.all_eq_true]
    simp

/-- C6 (amended): a single favorite toggle appends the recipe when no
favorite carries its name, and removes every favorite carrying that name
otherwise; toggling twice restores the original list exactly when the name
was absent, and otherwise yields the original with all same-named
favorites removed and the toggled recipe appended at the end. -/
theorem handleToggleFavorite_toggle_behavior (r : Recipe) (prev : List Recipe) :
    (handleToggleFavorite r (handleToggleFavorite r prev)
      = if prev.any (fun q => q.name == r.name)
        then prev.filter (fun q => q.name != r.name) ++ [r]
        else prev)
    ∧ (∀ x, x ∈ handleToggleFavorite r prev ↔
        if prev.any (fun q => q.name == r.name)
        then x ∈ prev ∧ x.name ≠ r.name
        else x ∈ prev ∨ x = r) := by
  constructor
  · by_cases h : prev.any (fun q => q.name == r.name)
    · -- present: first toggle removes all name-mates, second appends r
      rw [if_pos h]
      unfold handleToggleFavorite
      rw [if_pos h]
      have hnone : ((prev.filter (fun q => q.name != r.name)).any
          (fun q => q.name == r.name)) = false := by
        rw [Bool.eq_false_iff]
        intro hany
        rcases List.any_eq_true.mp hany with ⟨q, hq, hq2⟩
        rcases List.mem_filter.mp hq with ⟨_, hq1⟩
        rw [bne_iff_ne] at hq1
        exact hq1 (by simpa using hq2)
      rw [if_neg (by simp [hnone])]
    · -- absent: first toggle appends r, second removes it again
      rw [if_neg h]
      unfold handleToggleFavorite
      rw [if_neg h]
      have hyes : ((prev ++ [r]).any (fun q => q.name == r.name)) = true := by
        simp
      rw [if_pos (by simp [hyes])]
      rw [List.filter_append]
      have hr : List.filter (fun q => q.name != r.name) [r] = [] := by
        simp
      rw [hr, List.append_nil]
      rw [List.filter_eq_self.mpr]
      intro a ha
      rw [bne_iff_ne]
      intro heq
      exact h (List.any_eq_true.mpr ⟨a, ha, by simp [heq]⟩)
  · intro x
    unfold handleToggleFavorite
    by_cases h : prev.any (fun q => q.name == r.name)
    · rw [if_pos h, if_pos h, List.mem_filter]
      simp
    · rw [if_neg h, if_neg h, List.mem_append]
      simp

/-- C6 counterexample: with favorites `[soupA, saladB]` (distinct names),
toggling `soupA` twice yields `[saladB, soupA]`, not the original list —
the double toggle moves the recipe to the end instead of restoring the
original favorites list. -/
def soupA : Recipe :=
  { name := "Soup", difficulty := .easy, prepTime := 5, calories := 100,
    dietaryTags := [], ingredients := [], instructions := [] }

def saladB : Recipe :=
  { name := "Salad", difficulty := .easy, prepTime := 5, calories := 100,
    dietaryTags := [], ingredients := [], instructions := [] }

/-- C6: the claim "toggling twice restores the original favorites list"
fails at the concrete list `[soupA, saladB]`. -/
theorem handleToggleFavorite_double_toggle_counterexample :
    handleToggleFavorite soupA (handleToggleFavorite soupA [soupA, saladB])
      = [saladB, soupA]
    ∧ handleToggleFavorite soupA (handleToggleFavorite soupA [soupA, saladB])
      ≠ [soupA, saladB] := by
  refine ⟨rfl, ?_⟩
  decide

/-- C7 (amended): `addToShoppingList` preserves the existing list as a
prefix, appends exactly the incoming items not already present (in their
given order), and is idempotent; the result is duplicate-free provided
both the existing list and the batch are duplicate-free (a batch with
internal repetitions does introduce duplicates, see the counterexample). -/
theorem addToShoppingList_spec (prev items : List String) :
    (addToShoppingList prev items).take prev.length = prev
    ∧ (addToShoppingList prev items).drop prev.length
        = items.filter (fun item => !prev.contains item)
    ∧ addToShoppingList (addToShoppingList prev items) items = addToShoppingList prev items
    ∧ (prev.Nodup → items.Nodup → (addToShoppingList prev items).Nodup) := by
  refine ⟨List.take_left prev _, List.drop_left prev _, ?_, ?_⟩
  · unfold addToShoppingList
    have hnil : items.filter
        (fun item => !(prev ++ items.filter (fun i => !prev.contains i)).contains item)
          = [] := by
      rw [List.filter_eq_nil_iff]
      intro a ha
      simp only [Bool.not_eq_true', Bool.not_eq_false]
      by_cases hp : a ∈ prev
      · simp [hp]
      · simp
        exact Or.inr ⟨ha, hp⟩
    rw [hnil, List.append_nil]
  · intro hprev hitems
    unfold addToShoppingList
    rw [List.nodup_append]
    refine ⟨hprev, List.Nodup.filter _ hitems, ?_⟩
    rw [List.disjoint_left]
    intro a ha hmem
    rcases List.mem_filter.mp hmem with ⟨_, hcond⟩
    simp [ha] at hcond

/-- C7 witness: concrete instantiation of the duplicate-freedom clause. -/
theorem addToShoppingList_spec_witness :
    (["milk"] : List String).Nodup ∧ (["egg", "milk"] : List String).Nodup
    ∧ (addToShoppingList ["milk"] ["egg", "milk"]).Nodup :=
  ⟨by decide, by decide,
    (addToShoppingList_spec ["milk"] ["egg", "milk"]).2.2.2 (by decide) (by decide)⟩

/-- C7 counterexample: a batch with an internal repetition of an item not
yet on the list is appended twice, so the claim "the resulting list
contains no duplicates" fails at `L = []`, `X = ["a", "a"]`. -/
theorem addToShoppingList_duplicate_counterexample :
    addToShoppingList [] ["a", "a"] = ["a", "a"]
    ∧ ¬ (addToShoppingList [] ["a", "a"]).Nodup := by
  refine ⟨rfl, ?_⟩
  intro h
  have : addToShoppingList [] ["a", "a"] = ["a", "a"] := rfl
  rw [this] at h
  simp at h

/-- C8: in every state reachable from the initial state through the
exposed operations, the cooking view implies a non-null selected recipe:
the only transition into `cooking` (`handleSelectRecipe`) installs a
selection, and every operation that clears the selection
(`handleBackToRecipes`, `resetApp`) simultaneously leaves the cooking
view. -/
theorem cooking_view_has_selection (s : AppState) (h : Reachable s) :
    s.view = .cooking → s.selectedRecipe ≠ none := by
  induction h with
  | init loadedFavorites =>
      intro hv
      simp [initState] at hv
  | step s op _ ih =>
      cases op with
      | imageUpload outcome =>
          cases outcome with
          | ok rs => intro hv; simp [applyOp, handleImageUpload] at hv
          | error msg => intro hv; simp [applyOp, handleImageUpload] at hv
      | filterChange filter => exact fun hv => ih hv
      | clearFilters => exact fun hv => ih hv
      | selectRecipe recipe =>
          intro _
          simp [applyOp, handleSelectRecipe]
      | backToRecipes => intro hv; simp [applyOp, handleBackToRecipes] at hv
      | addShopping items => exact fun hv => ih hv
      | removeShopping item => exact fun hv => ih hv
      | toggleFavorite recipe => exact fun hv => ih hv
      | reset => intro hv; simp [applyOp, resetApp] at hv
      | setTab tab => exact fun hv => ih hv
      | setSearch query => exact fun hv => ih hv

/-- C8 witness: after uploading an image that yields one recipe and
selecting it, the state is reachable, in the cooking view, and the
selection is non-null. -/
theorem cooking_view_has_selection_witness :
    (applyOp (.selectRecipe soupA)
        (applyOp (.imageUpload (.ok [soupA])) (initState []))).view = .cooking
    ∧ (applyOp (.selectRecipe soupA)
        (applyOp (.imageUpload (.ok [soupA])) (initState []))).selectedRecipe ≠ none :=
  ⟨rfl,
    cooking_view_has_selection _
      (Reachable.step _ _ (Reachable.step _ _ (Reachable.init []))) rfl⟩

/-! ### Streaming lemmas for the chat orchestrator -/

/-- `setLastText` on a list with explicit last element rewrites exactly
that element's text. -/
theorem setLastText_append (xs : List ChatMessage) (m : ChatMessage) (t : String) :
    setLastText (xs ++ [m]) t = xs ++ [{ m with text := t }] := by
  induction xs with
  | nil => rfl
  | cons a xs ih =>
      cases xs with
      | nil => rfl
      | cons b xs' =>
          show a :: setLastText ((b :: xs') ++ [m]) t
              = a :: ((b :: xs') ++ [{ m with text := t }])
          rw [ih]

/-- `setLastGrounding` on a list with explicit last element rewrites
exactly that element, only when it is a model message. -/
theorem setLastGrounding_append (xs : List ChatMessage) (m : ChatMessage)
    (g : List GroundingChunk) :
    setLastGrounding (xs ++ [m]) g
      = xs ++ (if m.role = .model then [{ m with groundingChunks := g }] else [m]) := by
  induction xs with
  | nil => rfl
  | cons a xs ih =>
      cases xs with
      | nil => rfl
      | cons b xs' =>
          show a :: setLastGrounding ((b :: xs') ++ [m]) g
              = a :: ((b :: xs')
                  ++ (if m.role = .model then [{ m with groundingChunks := g }] else [m]))
          rw [ih]

/-- After the first chunk has been applied, the streaming loop keeps a
single trailing message whose text accumulates the remaining fragments
onto the running `fullResponse`. -/
theorem streamChunks_false_append (cs : List String) :
    ∀ (xs : List ChatMessage) (m : ChatMessage) (fr : String), m.text = fr →
      streamChunks (xs ++ [m]) false fr cs
        = xs ++ [{ m with text := cs.foldl (· ++ ·) fr }] := by
  induction cs with
  | nil =>
      intro xs m fr hm
      subst hm
      rfl
  | cons c cs ih =>
      intro xs m fr hm
      show streamChunks (setLastText (xs ++ [m]) (fr ++ c)) false (fr ++ c) cs = _
      rw [setLastText_append]
      exact ih xs { m with text := fr ++ c } (fr ++ c) rfl

/-- A non-empty stream appends exactly one model message whose text is the
concatenation of all fragments. -/
theorem streamChunks_true_append (xs : List ChatMessage) (c : String) (cs : List String) :
    streamChunks xs true "" (c :: cs)
      = xs ++ [{ role := .model, text := String.join (c :: cs) }] := by
  show streamChunks
      (xs ++ [{ role := .model, text := "" ++ c }]) false ("" ++ c) cs = _
  rw [streamChunks_false_append cs xs { role := .model, text := "" ++ c } ("" ++ c) rfl]
  rfl

/-- C1: for a user turn whose stream delivers at least one fragment,
exactly one model message is appended for that turn — the final transcript
is the old one plus the user message plus a single model message whose
text is the concatenation of all fragments — and after each fragment
(i.e. for every non-empty prefix of the fragment list, since the loop
state after `p` fragments is `streamChunks … p`) the single trailing model
message's text is the cumulative concatenation so far. -/
theorem chat_stream_single_model_message (msgs : List ChatMessage) (message : String)
    (chunks : List String) (grounding : List GroundingChunk) (hne : chunks ≠ []) :
    (∃ final : ChatMessage, final.role = .model ∧ final.text = String.join chunks ∧
      (handleSendMessage true false msgs message (.success chunks grounding)).1
        = (msgs ++ [mkUserMessage message]) ++ [final])
    ∧ (∀ p q, chunks = p ++ q → p ≠ [] →
        ∃ mid : ChatMessage, mid.role = .model ∧ mid.text = String.join p ∧
          streamChunks (msgs ++ [mkUserMessage message]) true "" p
            = (msgs ++ [mkUserMessage message]) ++ [mid]) := by
  constructor
  · obtain ⟨c, cs, rfl⟩ := List.exists_cons_of_ne_nil hne
    have hstream := streamChunks_true_append (msgs ++ [mkUserMessage message]) c cs
    cases grounding with
    | nil =>
        refine ⟨{ role := .model, text := String.join (c :: cs) }, rfl, rfl, ?_⟩
        show attachGrounding
            (streamChunks (msgs ++ [mkUserMessage message]) true "" (c :: cs)) [] = _
        rw [hstream]
        rfl
    | cons g gs =>
        refine ⟨{ role := .model, text := String.join (c :: cs),
                  groundingChunks := g :: gs }, rfl, rfl, ?_⟩
        show attachGrounding
            (streamChunks (msgs ++ [mkUserMessage message]) true "" (c :: cs)) (g :: gs) = _
        rw [hstream]
        show setLastGrounding _ (g :: gs) = _
        rw [setLastGrounding_append]
        rfl
  · intro p q hpq hp
    obtain ⟨c, cs, rfl⟩ := List.exists_cons_of_ne_nil hp
    exact ⟨{ role := .model, text := String.join (c :: cs) }, rfl, rfl,
      streamChunks_true_append _ c cs⟩

/-- C1 witness: a concrete two-fragment stream. -/
theorem chat_stream_single_model_message_witness :
    (["Hel", "Hello"] : List String) ≠ []
    ∧ (∃ final : ChatMessage, final.role = .model
        ∧ final.text = String.join ["Hel", "Hello"]
        ∧ (handleSendMessage true false [] "q" (.success ["Hel", "Hello"] [])).1
            = ([] ++ [mkUserMessage "q"]) ++ [final]) :=
  ⟨by simp, (chat_stream_single_model_message [] "q" ["Hel", "Hello"] [] (by simp)).1⟩

/-- C4 (amended): when a chat session exists, `handleSendMessage` appends
the user message immediately (it is the `msgs.length`-th entry of the
final transcript whatever the stream outcome), always resets the loading
flag, and on a send/stream failure the transcript ends with the terminal
apology model message, so no half-written model message is left without a
completion or failure marker.  (When chat initialisation failed — no
session — `handleSendMessage` is a no-op, see the counterexample.) -/
theorem handleSendMessage_appends_user_and_recovers (prevLoading : Bool)
    (msgs : List ChatMessage) (message : String) (outcome : StreamOutcome) :
    ((handleSendMessage true prevLoading msgs message outcome).1).take (msgs.length + 1)
        = msgs ++ [mkUserMessage message]
    ∧ (handleSendMessage true prevLoading msgs message outcome).2 = false
    ∧ ∀ received, outcome = .failure received →
        (handleSendMessage true prevLoading msgs message outcome).1.getLast?
          = some apologyMessage := by
  have hdec : ∃ rest, (handleSendMessage true prevLoading msgs message outcome).1
      = (msgs ++ [mkUserMessage message]) ++ rest := by
    cases outcome with
    | failure received =>
        cases received with
        | nil => exact ⟨[apologyMessage], rfl⟩
        | cons c cs =>
            refine ⟨[{ role := .model, text := String.join (c :: cs) }, apologyMessage], ?_⟩
            show streamChunks (msgs ++ [mkUserMessage message]) true "" (c :: cs)
                ++ [apologyMessage] = _
            rw [streamChunks_true_append]
            simp
    | success chunks grounding =>
        cases chunks with
        | nil =>
            cases grounding with
            | nil =>
                refine ⟨[], ?_⟩
                show (msgs ++ [mkUserMessage message])
                    = (msgs ++ [mkUserMessage message]) ++ []
                rw [List.append_nil]
            | cons g gs =>
                refine ⟨[], ?_⟩
                show setLastGrounding (msgs ++ [mkUserMessage message]) (g :: gs)
                    = (msgs ++ [mkUserMessage message]) ++ []
                rw [setLastGrounding_append, List.append_nil]
                rfl
        | cons c cs =>
            cases grounding with
            | nil =>
                refine ⟨[{ role := .model, text := String.join (c :: cs) }], ?_⟩
                show attachGrounding
                    (streamChunks (msgs ++ [mkUserMessage message]) true "" (c :: cs)) [] = _
                rw [streamChunks_true_append]
                rfl
            | cons g gs =>
                refine ⟨[{ role := .model, text := String.join (c :: cs),
                            groundingChunks := g :: gs }], ?_⟩
                show attachGrounding
                    (streamChunks (msgs ++ [mkUserMessage message]) true "" (c :: cs))
                      (g :: gs) = _
                rw [streamChunks_true_append]
                show setLastGrounding _ (g :: gs) = _
                rw [setLastGrounding_append]
                rfl
  obtain ⟨rest, hrest⟩ := hdec
  refine ⟨?_, ?_, ?_⟩
  · rw [hrest]
    exact List.take_left' (by simp)
  · cases outcome <;> rfl
  · intro received hr
    subst hr
    show (streamChunks (msgs ++ [mkUserMessage message]) true "" received
        ++ [apologyMessage]).getLast? = _
    rw [List.getLast?_concat]

/-- C4 witness: a concrete failing stream that had already delivered one
fragment still ends with the apology message. -/
theorem handleSendMessage_appends_user_and_recovers_witness :
    (handleSendMessage true true [] "hi" (.failure ["half"])).1.getLast?
      = some apologyMessage :=
  (handleSendMessage_appends_user_and_recovers true [] "hi" (.failure ["half"])).2.2
    ["half"] rfl

/-- C4 counterexample: the claim says the user message is appended
"regardless of whether chat initialization succeeded", but when
initialisation failed (`chatSession` is null) `handleSendMessage` returns
at its first line — the transcript stays empty, no user message containing
"hi" is ever appended, and the loading flag keeps its previous value. -/
theorem handleSendMessage_no_session_counterexample :
    (handleSendMessage false true [] "hi" (.success ["Hello"] [])).1 = []
    ∧ (handleSendMessage false true [] "hi" (.success ["Hello"] [])).2 = true :=
  ⟨rfl, rfl⟩

/-! ### Translation lemmas -/

/-- On any failed interaction — no parsable string array, or an array of
the wrong length — `translateTexts` returns the original texts. -/
theorem translateTexts_failed (texts : List String) (parsedResponse : Option (List String))
    (h : translationFailed texts parsedResponse) :
    translateTexts texts parsedResponse = texts := by
  unfold translateTexts
  by_cases he : texts.isEmpty
  · rw [if_pos he]
    rw [List.isEmpty_iff] at he
    exact he.symm
  · rw [if_neg he]
    rcases h with h | ⟨arr, harr, hlen⟩
    · rw [h]
    · rw [harr]
      simp only [if_neg hlen]

/-- Feeding the needy messages' own texts back through the store loop is
the identity: a returned string equal to the original is never cached. -/
theorem applyTranslations_self (lang : String) (msgs : List ChatMessage) :
    applyTranslations lang msgs
        ((msgs.filter (fun m => needsTranslation m lang)).map (·.text)) = msgs := by
  induction msgs with
  | nil => rfl
  | cons m ms ih =>
      cases hn : needsTranslation m lang with
      | true =>
          have hfilter : List.filter (fun m => needsTranslation m lang) (m :: ms)
              = m :: List.filter (fun m => needsTranslation m lang) ms := by
            simp [List.filter_cons, hn]
          rw [hfilter, List.map_cons]
          unfold applyTranslations
          rw [if_pos hn]
          have hstore : storeTranslationIfNew lang m m.text = m := by
            unfold storeTranslationIfNew
            rw [if_neg]
            simp
          show storeTranslationIfNew lang m m.text
              :: applyTranslations lang ms
                  (List.map (fun x => x.text)
                    (List.filter (fun m => needsTranslation m lang) ms))
            = m :: ms
          rw [hstore, ih]
      | false =>
          have hfilter : List.filter (fun m => needsTranslation m lang) (m :: ms)
              = List.filter (fun m => needsTranslation m lang) ms := by
            simp [List.filter_cons, hn]
          rw [hfilter]
          unfold applyTranslations
          rw [if_neg (by simp [hn])]
          rw [ih]

/-- C2 (amended): a failed translation request degrades to the original
source-language text, but the two consumers differ on caching.  For chat
messages (`doTranslate`) a failed batch — no parsable array or a
wrong-length array for the needy texts — leaves every message, and in
particular every `translations` map, unchanged.  For recipes
(`handleTranslation`) each failed batch falls back to the original
strings, yet the combined entry is still recorded in the per-recipe cache
under the language key; when only the instruction batch fails the recorded
entry pairs (possibly translated) ingredient names with the untranslated
original instructions — a partial entry (see the counterexample). -/
theorem translation_failure_fallback :
    (∀ (isOpen : Bool) (messages : List ChatMessage) (selectedLanguage : String)
        (parsedResponse : Option (List String)),
      translationFailed
          ((messages.filter (fun m => needsTranslation m selectedLanguage)).map (·.text))
          parsedResponse →
      doTranslate isOpen messages selectedLanguage parsedResponse = messages)
    ∧ (∀ (recipe : Recipe) (selectedLanguage : String)
        (cache : List (String × TranslatedContent))
        (ingredientsResponse instructionsResponse : Option (List String)),
      translationFailed recipe.instructions instructionsResponse →
      ∀ entry, lookupContent
          (handleTranslation recipe selectedLanguage cache
            ingredientsResponse instructionsResponse) selectedLanguage = some entry →
        lookupContent cache selectedLanguage = some entry
        ∨ entry.instructions = recipe.instructions) := by
  constructor
  · intro isOpen messages selectedLanguage parsedResponse hfail
    unfold doTranslate
    by_cases h1 : (selectedLanguage == "en" || messages.isEmpty || !isOpen) = true
    · rw [if_pos h1]
    · rw [if_neg h1]
      by_cases h2 : (messages.filter
          (fun m => needsTranslation m selectedLanguage)).isEmpty = true
      · rw [if_pos h2]
      · rw [if_neg h2]
        cases hfind : TRANSLATION_LANGUAGES.find? (fun l => l.1 == selectedLanguage) with
        | none => rfl
        | some l =>
            show applyTranslations selectedLanguage messages
                (translateTexts _ parsedResponse) = messages
            rw [translateTexts_failed _ _ hfail]
            exact applyTranslations_self selectedLanguage messages
  · intro recipe selectedLanguage cache ingredientsResponse instructionsResponse hfail
      entry hentry
    unfold handleTranslation at hentry
    by_cases h1 : (selectedLanguage == "en"
        || (lookupContent cache selectedLanguage).isSome) = true
    · rw [if_pos h1] at hentry
      exact Or.inl hentry
    · rw [if_neg h1] at hentry
      cases hfind : TRANSLATION_LANGUAGES.find? (fun l => l.1 == selectedLanguage) with
      | none =>
          rw [hfind] at hentry
          exact Or.inl hentry
      | some l =>
          rw [hfind] at hentry
          refine Or.inr ?_
          unfold lookupContent at hentry
          rw [List.find?_cons_of_pos _ (by simp)] at hentry
          simp only [Option.map_some'] at hentry
          rw [← Option.some_inj.mp hentry]
          show translateTexts recipe.instructions instructionsResponse = _
          exact translateTexts_failed _ _ hfail

/-- C2 witness: a concrete chat transcript with one pending message where
the service answers with a two-element array for a one-element request —
the transcript is returned unchanged. -/
theorem translation_failure_fallback_witness :
    translationFailed
        (((([{ role := .model, text := "Hi" }] : List ChatMessage)).filter
            (fun m => needsTranslation m "es")).map (·.text)) (some ["x", "y"])
    ∧ doTranslate true [{ role := .model, text := "Hi" }] "es" (some ["x", "y"])
        = [{ role := .model, text := "Hi" }] :=
  ⟨Or.inr ⟨["x", "y"], rfl, by decide⟩,
    translation_failure_fallback.1 true [{ role := .model, text := "Hi" }] "es"
      (some ["x", "y"]) (Or.inr ⟨["x", "y"], rfl, by decide⟩)⟩

/-- A one-ingredient demonstration recipe. -/
def eggSoup : Recipe :=
  { name := "Soup", difficulty := .easy, prepTime := 5, calories := 100,
    dietaryTags := [], ingredients := [{ name := "egg", isAvailable := false }],
    instructions := ["Boil the egg"] }

/-- C2 counterexample: the claim says a failed translation request records
no poisoned or partial cache entry for the requested (object, language)
key.  Concretely: for a one-ingredient recipe, the ingredient batch
succeeds (`["huevo"]`) while the instruction batch fails (`none`); with an
initially empty cache, `handleTranslation` nonetheless records an entry
under "es" that mixes the translated ingredient name with the untranslated
original instruction — a partial entry for the failed request. -/
theorem translation_partial_cache_counterexample :
    translationFailed eggSoup.instructions none
    ∧ handleTranslation eggSoup "es" [] (some ["huevo"]) none
      = [("es", { ingredients := [{ name := "huevo", isAvailable := false }],
                  instructions := ["Boil the egg"] })] :=
  ⟨Or.inl rfl, rfl⟩

/-- C3: after fence stripping, a payload that is not array-bracketed makes
`analyzeFridgeAndSuggestRecipes` fail with the typed no-recognizable-content
message; and — given that `JSON.parse` can only turn a `[`-initial string
into an array (`hjson`) — the function never returns a non-array value, so
there is no silent empty or mis-shaped result. -/
theorem analyzeFridge_non_array_rejected (responseText : String)
    (parse : String → Option ParsedPayload)
    (hne : responseText ≠ "")
    (hjson : ∀ s, jsStartsWith s "[" = true → parse s ≠ some .nonArray) :
    ((jsStartsWith (stripFence responseText) "["
        && jsEndsWith (stripFence responseText) "]") = false →
      analyzeFridgeAndSuggestRecipes responseText parse
        = .error noRecognizableContentMessage)
    ∧ ∀ payload, analyzeFridgeAndSuggestRecipes responseText parse = .ok payload →
        ∃ recipes, payload = .recipeArray recipes := by
  constructor
  · intro hbr
    unfold analyzeFridgeAndSuggestRecipes
    rw [if_neg hne]
    show (if !(jsStartsWith (stripFence responseText) "["
            && jsEndsWith (stripFence responseText) "]") then
          Except.error noRecognizableContentMessage
        else
          match parse (stripFence responseText) with
          | none => Except.error invalidFormatMessage
          | some payload => Except.ok payload) = _
    rw [hbr]
    rfl
  · intro payload hok
    unfold analyzeFridgeAndSuggestRecipes at hok
    rw [if_neg hne] at hok
    have hok2 : (if (!(jsStartsWith (stripFence responseText) "["
            && jsEndsWith (stripFence responseText) "]")) = true then
          Except.error noRecognizableContentMessage
        else
          match parse (stripFence responseText) with
          | none => Except.error invalidFormatMessage
          | some payload => Except.ok payload) = Except.ok payload := hok
    clear hok
    by_cases hbr : (jsStartsWith (stripFence responseText) "["
        && jsEndsWith (stripFence responseText) "]") = true
    · rw [show (!(jsStartsWith (stripFence responseText) "["
          && jsEndsWith (stripFence responseText) "]")) = false by simp [hbr]] at hok2
      simp only [Bool.false_eq_true, if_false] at hok2
      cases hp : parse (stripFence responseText) with
      | none => rw [hp] at hok2; exact absurd hok2 (by simp)
      | some payload' =>
          rw [hp] at hok2
          cases payload' with
          | recipeArray recipes =>
              refine ⟨recipes, ?_⟩
              simpa using hok2.symm
          | nonArray =>
              exact absurd hp
                (hjson (stripFence responseText) (Bool.and_elim_left hbr))
    · rw [show (!(jsStartsWith (stripFence responseText) "["
          && jsEndsWith (stripFence responseText) "]")) = true by simp [hbr]] at hok2
      simp at hok2

/-- C3 witness: a plain-prose response ("I see vegetables.") with a parser
that finds no JSON is rejected with the no-recognizable-content message. -/
theorem analyzeFridge_non_array_rejected_witness :
    analyzeFridgeAndSuggestRecipes "I see vegetables." (fun _ => none)
      = .error noRecognizableContentMessage :=
  (analyzeFridge_non_array_rejected "I see vegetables." (fun _ => none)
      (by decide) (fun s _ h => by simp at h)).1 (by decide)

/-- Reduction of the store loop at a message still needing translation. -/
theorem applyTranslations_cons_pos (lang : String) (m : ChatMessage)
    (ms : List ChatMessage) (t : String) (ts : List String)
    (h : needsTranslation m lang = true) :
    applyTranslations lang (m :: ms) (t :: ts)
      = storeTranslationIfNew lang m t :: applyTranslations lang ms ts := by
  simp only [applyTranslations]
  rw [if_pos h]

/-- Reduction of the store loop at a message still needing translation
when the returned list is exhausted. -/
theorem applyTranslations_cons_pos_nil (lang : String) (m : ChatMessage)
    (ms : List ChatMessage) (h : needsTranslation m lang = true) :
    applyTranslations lang (m :: ms) [] = m :: applyTranslations lang ms [] := by
  simp only [applyTranslations]
  rw [if_pos h]

/-- Reduction of the store loop at a message not needing translation. -/
theorem applyTranslations_cons_neg (lang : String) (m : ChatMessage)
    (ms : List ChatMessage) (ts : List String)
    (h : needsTranslation m lang = false) :
    applyTranslations lang (m :: ms) ts = m :: applyTranslations lang ms ts := by
  simp only [applyTranslations]
  rw [if_neg (by simp [h])]

/-- C10: in the chat translation pass, a message still needing translation
either receives a cached entry for a returned string that is non-empty and
different from its original text, or is left completely unchanged — in
particular a returned translation equal to the source text (or empty) is
never cached, and such a message still counts as needing translation for
every subsequent pass of that language. -/
theorem chat_translation_store_guard (lang : String) (msgs : List ChatMessage) :
    ∀ (ts : List String) (i : Nat) (m : ChatMessage),
      msgs[i]? = some m → needsTranslation m lang = true →
      ∃ m', (applyTranslations lang msgs ts)[i]? = some m' ∧
        ((∃ t, t ≠ "" ∧ t ≠ m.text ∧ m' = setTranslation m lang t)
          ∨ (m' = m ∧ needsTranslation m' lang = true)) := by
  induction msgs with
  | nil =>
      intro ts i m hm _
      simp at hm
  | cons m0 ms ih =>
      intro ts i m hm hneed
      cases hn : needsTranslation m0 lang with
      | false =>
          rw [applyTranslations_cons_neg lang m0 ms ts hn]
          cases i with
          | zero =>
              have hm0 : m0 = m := by simpa using hm
              subst hm0
              rw [hneed] at hn
              exact absurd hn (by simp)
          | succ i =>
              obtain ⟨m', hm', hcase⟩ := ih ts i m (by simpa using hm) hneed
              exact ⟨m', by simpa using hm', hcase⟩
      | true =>
          cases ts with
          | nil =>
              rw [applyTranslations_cons_pos_nil lang m0 ms hn]
              cases i with
              | zero =>
                  have hm0 : m0 = m := by simpa using hm
                  subst hm0
                  exact ⟨m0, by simp, Or.inr ⟨rfl, hneed⟩⟩
              | succ i =>
                  obtain ⟨m', hm', hcase⟩ := ih [] i m (by simpa using hm) hneed
                  exact ⟨m', by simpa using hm', hcase⟩
          | cons t ts' =>
              rw [applyTranslations_cons_pos lang m0 ms t ts' hn]
              cases i with
              | zero =>
                  have hm0 : m0 = m := by simpa using hm
                  subst hm0
                  by_cases ht : (t != "" && t != m0.text) = true
                  · refine ⟨setTranslation m0 lang t, by simp [storeTranslationIfNew, ht], ?_⟩
                    refine Or.inl ⟨t, ?_, ?_, rfl⟩
                    · simpa using (Bool.and_elim_left ht)
                    · simpa using (Bool.and_elim_right ht)
                  · refine ⟨m0, ?_, Or.inr ⟨rfl, hneed⟩⟩
                    simp only [storeTranslationIfNew, ht]
                    simp [if_neg ht]
              | succ i =>
                  obtain ⟨m', hm', hcase⟩ := ih ts' i m (by simpa using hm) hneed
                  exact ⟨m', by simpa using hm', hcase⟩

/-- C10 witness: the service echoes the original text back ("Hi" for "Hi");
nothing is cached and the message still needs translation. -/
theorem chat_translation_store_guard_witness :
    ([({ role := .model, text := "Hi" } : ChatMessage)] : List ChatMessage)[0]?
        = some { role := .model, text := "Hi" }
    ∧ needsTranslation { role := .model, text := "Hi" } "es" = true
    ∧ ∃ m', (applyTranslations "es" [{ role := .model, text := "Hi" }] ["Hi"])[0]?
          = some m'
        ∧ ((∃ t, t ≠ "" ∧ t ≠ ({ role := .model, text := "Hi" } : ChatMessage).text
              ∧ m' = setTranslation { role := .model, text := "Hi" } "es" t)
          ∨ (m' = { role := .model, text := "Hi" }
              ∧ needsTranslation m' "es" = true)) :=
  ⟨rfl, rfl,
    chat_translation_store_guard "es" [{ role := .model, text := "Hi" }]
      ["Hi"] 0 { role := .model, text := "Hi" } rfl rfl⟩

end CulinaryAssistant
